import Mathlib

/-!
Verification of the core remote-call machinery of a multi-account desktop
client (Rust/Tauri), against its natural-language specification.

The Rust sources are shallowly embedded:
* byte strings are `List Nat` (each element a byte value);
* `u8`/`usize` truncation is written out as `% 256` / `% 2 ^ 64`
  where the source's fixed-width arithmetic matters (release-mode
  wrapping semantics);
* network transports, the credential-exchange service, the account
  store and the schema-bearing response parsers (which live outside the
  analysed slice) are oracles passed in as explicit function arguments;
* `async` control flow is sequentialised; timing (delays) is recorded
  as explicit events in a trace instead of being performed.
-/

/-! ## Wire codec: varint encoding -/

/-- Canonical little-endian base-128 varint, as produced by the encoding
loop of `serialize_protobuf_string` (switch_account_commands.rs):
while the value exceeds 127, emit the low 7 bits with the continuation
bit set, then emit the final 7-bit group. -/
def varint (n : Nat) : List Nat :=
  if n < 128 then [n] else (n % 128 + 128) :: varint (n / 128)
termination_by n
decreasing_by exact Nat.div_lt_self (by omega) (by omega)

/-- `serialize_protobuf_string` (switch_account_commands.rs:67–89).
Empty input returns an empty body; otherwise tag `0x0A` (field 1,
wire type 2), full varint length, then the value bytes. -/
def serialize_protobuf_string (value : List Nat) : List Nat :=
  if value.isEmpty then [] else 10 :: (varint value.length ++ value)

/-- The two-byte-capped varint length prefix shared by
`build_request_body`, `build_update_plan_body`, `encode_string_field`
and `get_team_credit_entries` (windsurf_service.rs): one byte when the
length is below 128, otherwise exactly two bytes where the second is
the `u8` truncation of `len >> 7`. -/
def encodeLen2 (len : Nat) : List Nat :=
  if len < 128 then [len] else [len % 128 + 128, len / 128 % 256]

/-- `WindsurfService::build_request_body` (windsurf_service.rs:38–62):
`0x0a`, capped varint token length, token bytes, `0x10`, seat count
truncated to one byte (`seat_count as u8` on an `i32`). -/
def build_request_body (token : List Nat) (seat_count : Int) : List Nat :=
  10 :: encodeLen2 token.length ++ token ++ [16, (seat_count % 256).toNat]

/-- `WindsurfService::encode_string_field` (windsurf_service.rs:1983–2001):
tag `(field_num << 3) | 2` on a `u8` (so the shift wraps mod 256; the
low three bits of the wrapped product are zero, making `| 2` an
addition), capped varint length, value bytes. -/
def encode_string_field (field_num : Nat) (value : List Nat) : List Nat :=
  (field_num * 8 % 256 + 2) :: encodeLen2 value.length ++ value

/-- Follows the spec text (§4.1 encoding contract), for comparison with
the source encoders: a length-delimited field is
`tag(n,2) + varint(len(bytes)) + bytes` with a full varint length. -/
def encode_length_delimited_spec (field_num : Nat) (value : List Nat) : List Nat :=
  (field_num * 8 + 2) :: varint value.length ++ value

/-! ## Wire codec: the schema-less decoder -/

/-- Truncation to `usize` (release-mode wrapping arithmetic). -/
def wrap64 (n : Nat) : Nat := n % 2 ^ 64

/-- The inner varint-reading loop of `deserialize_protobuf_response`
(switch_account_commands.rs:110–120) run on the remaining suffix of the
input: accumulate `(byte & 0x7F) << shift` (a `usize` shift, so the
shift amount is masked mod 64 and the result wraps mod `2 ^ 64`) until
a byte with the continuation bit clear; running off the end of the
buffer leaves the partial value.  Returns the accumulated value and the
unconsumed suffix. -/
def readVarint : List Nat → Nat → Nat → Nat × List Nat
  | [], acc, _ => (acc, [])
  | b :: rest, acc, shift =>
    let acc2 := acc ||| wrap64 ((b % 128) <<< (shift % 64))
    if b / 128 % 2 == 0 then (acc2, rest) else readVarint rest acc2 (shift + 7)

/-- Bytes consumed by the wire-type-0 skip loop of
`deserialize_protobuf_response` (switch_account_commands.rs:132–140):
everything up to and including the first byte with the continuation bit
clear. -/
def skipVarint : List Nat → Nat
  | [] => 0
  | b :: rest => if b / 128 % 2 == 0 then 1 else 1 + skipVarint rest

/-- Strict UTF-8 validity of a byte sequence, as decided by Rust's
`std::str::from_utf8`: ASCII, two-byte `C2..DF`, three-byte `E0/E1..EC/
ED/EE..EF` (with the narrowed second-byte ranges that exclude overlong
forms and surrogates), four-byte `F0/F1..F3/F4`, each followed by
continuation bytes `80..BF`. -/
def utf8Valid : List Nat → Bool
  | [] => true
  | b :: rest =>
    if b ≤ 0x7F then utf8Valid rest
    else if 0xC2 ≤ b && b ≤ 0xDF then
      match rest with
      | c :: r => (0x80 ≤ c && c ≤ 0xBF) && utf8Valid r
      | [] => false
    else if b == 0xE0 then
      match rest with
      | c :: d :: r => (0xA0 ≤ c && c ≤ 0xBF) && (0x80 ≤ d && d ≤ 0xBF) && utf8Valid r
      | _ => false
    else if (0xE1 ≤ b && b ≤ 0xEC) || b == 0xEE || b == 0xEF then
      match rest with
      | c :: d :: r => (0x80 ≤ c && c ≤ 0xBF) && (0x80 ≤ d && d ≤ 0xBF) && utf8Valid r
      | _ => false
    else if b == 0xED then
      match rest with
      | c :: d :: r => (0x80 ≤ c && c ≤ 0x9F) && (0x80 ≤ d && d ≤ 0xBF) && utf8Valid r
      | _ => false
    else if b == 0xF0 then
      match rest with
      | c :: d :: e :: r =>
        (0x90 ≤ c && c ≤ 0xBF) && (0x80 ≤ d && d ≤ 0xBF) && (0x80 ≤ e && e ≤ 0xBF) && utf8Valid r
      | _ => false
    else if 0xF1 ≤ b && b ≤ 0xF3 then
      match rest with
      | c :: d :: e :: r =>
        (0x80 ≤ c && c ≤ 0xBF) && (0x80 ≤ d && d ≤ 0xBF) && (0x80 ≤ e && e ≤ 0xBF) && utf8Valid r
      | _ => false
    else if b == 0xF4 then
      match rest with
      | c :: d :: e :: r =>
        (0x80 ≤ c && c ≤ 0x8F) && (0x80 ≤ d && d ≤ 0xBF) && (0x80 ≤ e && e ≤ 0xBF) && utf8Valid r
      | _ => false
    else false

theorem readVarint_suffix_length (l : List Nat) :
    ∀ acc shift, (readVarint l acc shift).2.length ≤ l.length := by
  induction l with
  | nil => intro acc shift; simp [readVarint]
  | cons b rest ih =>
    intro acc shift
    simp only [readVarint]
    split
    · exact Nat.le_succ _
    · exact Nat.le_trans (ih _ _) (Nat.le_succ _)

theorem skipVarint_le (l : List Nat) : skipVarint l ≤ l.length := by
  induction l with
  | nil => simp [skipVarint]
  | cons b rest ih =>
    simp only [skipVarint]
    split
    · simp
    · simp only [List.length_cons]
      omega

/-- The main loop of `deserialize_protobuf_response`
(switch_account_commands.rs:98–145), written over the remaining suffix
of the input with the absolute position `pos` and the total input
length `dlen` carried along (they drive the source's
`pos + length <= data.len()` bound check, whose addition wraps in a
release build).  `Except.error ()` models the panic that the source
hits when the wrapped bound check passes but the slice range
`pos..pos+length` is inverted. -/
def deserLoop (dlen : Nat) : Nat → List Nat → Except Unit (Option (List Nat))
  | _, [] => .ok none
  | pos, tag :: rest =>
    let wire_type := tag % 8
    let field_number := tag / 8
    if wire_type == 2 then
      let r := readVarint rest 0 0
      let len := r.1
      let rest2 := r.2
      let pos2 := pos + 1 + (rest.length - rest2.length)
      if wrap64 (pos2 + len) ≤ dlen then
        if wrap64 (pos2 + len) < pos2 then .error ()
        else
          let content := rest2.take len
          if utf8Valid content && field_number == 1 && len != 0 then .ok (some content)
          else deserLoop dlen (pos2 + len) (rest2.drop len)
      else deserLoop dlen pos2 rest2
    else if wire_type == 0 then
      deserLoop dlen (pos + 1 + skipVarint rest) (rest.drop (skipVarint rest))
    else .ok none
termination_by _ l => l.length
decreasing_by
  · have h2 : (readVarint rest 0 0).2.length ≤ rest.length := readVarint_suffix_length rest 0 0
    have h3 : rest2.length ≤ rest.length := h2
    simp only [List.length_drop, List.length_cons]
    omega
  · have h2 : (readVarint rest 0 0).2.length ≤ rest.length := readVarint_suffix_length rest 0 0
    simp only [List.length_cons]
    omega
  · simp only [List.length_drop, List.length_cons]
    omega

/-- `deserialize_protobuf_response` (switch_account_commands.rs:92–148):
inputs shorter than two bytes yield `None`; otherwise the scan loop
runs.  `Except.error ()` marks the input as one on which the source
panics. -/
def deserialize_protobuf_response (data : List Nat) : Except Unit (Option (List Nat)) :=
  if data.length < 2 then .ok none else deserLoop data.length 0 data

/-! ## A model of `serde_json::Value` -/

/-- Minimal model of `serde_json::Value` as used by the analysed code. -/
inductive JVal where
  | null
  | bool (b : Bool)
  | num (n : Int)
  | str (s : String)
  | arr (xs : List JVal)
  | obj (fields : List (String × JVal))

/-- `Value::get(key)` on an object. -/
def JVal.getField : JVal → String → Option JVal
  | .obj fs, k => fs.lookup k
  | _, _ => none

/-- `Value::as_u64`. -/
def JVal.asU64 : JVal → Option Nat
  | .num n => if 0 ≤ n then some n.toNat else none
  | _ => none

/-- `Value::as_i64`. -/
def JVal.asI64 : JVal → Option Int
  | .num n => some n
  | _ => none

/-- `Value::as_bool`. -/
def JVal.asBool : JVal → Option Bool
  | .bool b => some b
  | _ => none

/-- `is_401_error` (api_commands.rs:35–40): the result's `status_code`
field, read as a `u64`, equals 401. -/
def is_401_error (result : JVal) : Bool :=
  Option.getD (Option.map (fun code => code == 401)
    (Option.bind (result.getField "status_code") JVal.asU64)) false

/-! ## `update_seats`: bounded retry with an attempt log -/

/-- Outcome of one HTTP send as seen by the caller: a transport error,
or a response with a status code and raw body bytes. -/
inductive AttemptOutcome where
  | transportErr (msg : String)
  | response (status : Nat) (body : List Nat)

/-- Content of an `AttemptResult.raw_response` field: either the raw
body bytes (the source stores their lossy UTF-8 rendering) or the
pretty-printed parse of the body (the source stores its JSON text). -/
inductive RawResp where
  | bytes (b : List Nat)
  | parsed (v : JVal)

/-- `AttemptResult` (windsurf_service.rs:16–23).  `timestamp` is the
wall-clock reading at the attempt, supplied by the clock oracle. -/
structure AttemptResult where
  attempt : Nat
  status_code : Option Nat
  raw_response : Option RawResp
  error : Option String
  timestamp : Nat

/-- `UpdateSeatsResult` (windsurf_service.rs:10–14). -/
structure UpdateSeatsResult where
  success : Bool
  attempts : List AttemptResult

/-- Timing-relevant events of one `update_seats` run: performing the
`i`-th attempt, or sleeping for a number of seconds. -/
inductive RetryEv where
  | attempt (i : Nat)
  | sleepSec (secs : Nat)
deriving DecidableEq, Repr

/-- Environment of `update_seats`: the transport (outcome of the `i`-th
send), the schema-bearing response decoder
`ProtobufParser::parse_update_seats_response` (defined outside the
analysed slice), and the wall clock. -/
structure SeatEnv where
  send : Nat → AttemptOutcome
  parseSeats : List Nat → Except String JVal
  clock : Nat → Nat

/-- The per-attempt success classification of `update_seats`
(windsurf_service.rs:331–359): status 200 or 204 counts as success,
except that a parsed body carrying an explicit boolean `success` field
uses that field; parse failures and empty bodies on 200/204 still count
as success; any other status leaves the attempt failed. -/
def classifySeatAttempt (env : SeatEnv) (status : Nat) (body : List Nat) : Bool :=
  if status == 200 || status == 204 then
    if body.length > 0 then
      match env.parseSeats body with
      | .ok parsed => Option.getD (Option.bind (parsed.getField "success") JVal.asBool) true
      | .error _ => true
    else true
  else false

/-- Lifts `classifySeatAttempt` to the `i`-th attempt; a transport
error is never a success. -/
def attemptOk (env : SeatEnv) (i : Nat) : Bool :=
  match env.send i with
  | .transportErr _ => false
  | .response status body => classifySeatAttempt env status body

/-- The `AttemptResult` record pushed for the `i`-th attempt
(windsurf_service.rs:361–393): transport errors record the error text
only; responses record the status and either the parsed body (when the
status is 200/204 and parsing succeeds) or the raw bytes. -/
def mkAttempt (env : SeatEnv) (i : Nat) : AttemptResult :=
  match env.send i with
  | .transportErr e =>
    { attempt := i + 1, status_code := none, raw_response := none,
      error := some e, timestamp := env.clock i }
  | .response status body =>
    let raw : RawResp :=
      if (status == 200 || status == 204) && body.length > 0 then
        match env.parseSeats body with
        | .ok parsed => .parsed parsed
        | .error _ => .bytes body
      else .bytes body
    { attempt := i + 1, status_code := some status, raw_response := some raw,
      error := none, timestamp := env.clock i }

/-- The retry loop of `update_seats` (windsurf_service.rs:297–400):
`n` attempts remain and `i` attempts were already made.  Appends one
record per attempt, breaks at the first attempt classified successful,
and sleeps one second between consecutive attempts (`i < retry_times-1`
in the source is exactly "another attempt follows"). -/
def updateSeatsLoop (env : SeatEnv) : Nat → Nat → UpdateSeatsResult × List RetryEv
  | 0, _ => (⟨false, []⟩, [])
  | n + 1, i =>
    let record := mkAttempt env i
    if attemptOk env i then (⟨true, [record]⟩, [.attempt i])
    else if n == 0 then (⟨false, [record]⟩, [.attempt i])
    else
      let next := updateSeatsLoop env n (i + 1)
      (⟨next.1.success, record :: next.1.attempts⟩,
        .attempt i :: .sleepSec 1 :: next.2)

/-- `WindsurfService::update_seats` (windsurf_service.rs:291–406),
returning the result together with the attempt/sleep event trace.
`retry_times` is the source's `i32` bound restricted to its
non-negative range (`for i in 0..retry_times` performs no iterations
otherwise). -/
def update_seats (env : SeatEnv) (retry_times : Nat) : UpdateSeatsResult × List RetryEv :=
  updateSeatsLoop env retry_times 0

/-- Number of attempts the retry loop performs with `n` attempts
remaining and `i` already made: every remaining slot is used until the
first attempt classified successful. -/
def attemptsTaken (env : SeatEnv) : Nat → Nat → Nat
  | 0, _ => 0
  | n + 1, i => if attemptOk env i then 1 else 1 + attemptsTaken env n (i + 1)

/-! ## `get_team_credit_entries`: response classification -/

/-- Outcome of a single HTTP exchange. -/
inductive TransportOutcome where
  | failure (msg : String)
  | response (status : Nat) (body : List Nat)

/-- The base64 alphabet used by `base64::engine::general_purpose::STANDARD`. -/
def base64Chars : List Char :=
  "ABCDEFGHIJKLMNOPQRSTUVWXYZabcdefghijklmnopqrstuvwxyz0123456789+/".toList

/-- Standard base64 with padding, as applied to the raw response bytes
in `get_team_credit_entries` (windsurf_service.rs:500). -/
def base64Encode : List Nat → List Char
  | [] => []
  | [a] =>
    [base64Chars.getD (a / 4) '?', base64Chars.getD (a % 4 * 16) '?', '=', '=']
  | [a, b] =>
    [base64Chars.getD (a / 4) '?', base64Chars.getD (a % 4 * 16 + b / 16) '?',
      base64Chars.getD (b % 16 * 4) '?', '=']
  | a :: b :: c :: rest =>
    base64Chars.getD (a / 4) '?' :: base64Chars.getD (a % 4 * 16 + b / 16) '?' ::
      base64Chars.getD (b % 16 * 4 + c / 64) '?' :: base64Chars.getD (c % 64) '?' ::
        base64Encode rest

/-- The byte sequence of the ASCII text `data:application/proto;base64,`,
which the source tests for with `starts_with`. -/
def dataProtoB64 : List Nat := "data:application/proto;base64,".toList.map Char.toNat

/-- List prefix test, as `[u8]::starts_with`. -/
def listStartsWith : List Nat → List Nat → Bool
  | [], _ => true
  | _ :: _, [] => false
  | p :: ps, b :: bs => p == b && listStartsWith ps bs

/-- Environment of `get_team_credit_entries`: the schema-bearing decoder
`ProtobufParser::parse_get_team_credit_entries_response` (outside the
analysed slice) and `String::from_utf8_lossy` (standard library). -/
structure CreditEnv where
  parseCredits : List Nat → Except String JVal
  lossy : List Nat → String

/-- Environment under which the C3 counterexample is evaluated: the
schema decoder rejects every body. -/
def c3FailEnv : CreditEnv :=
  { parseCredits := fun _ => .error "boom", lossy := fun _ => "" }

/-- The response classification of `get_team_credit_entries`
(windsurf_service.rs:459–524): transport failure and non-200 statuses
give structured failure objects; an empty 200 body is an empty entry
list; a parsable 200 body returns the parse; an unparsable 200 body
returns `success:false` with the parse error and the raw response
preserved (base64-encoded unless already in that form). -/
def get_team_credit_entries_on_response (env : CreditEnv) (outcome : TransportOutcome) : JVal :=
  match outcome with
  | .failure e => .obj [("success", .bool false), ("error", .str ("Request failed: " ++ e))]
  | .response status body =>
    if status == 200 then
      if body.length == 0 then
        .obj [("success", .bool true), ("entries", .arr []), ("total_entries", .num 0),
          ("message", .str "no credit entries")]
      else
        match env.parseCredits body with
        | .ok parsed => parsed
        | .error e =>
          let raw : String :=
            if listStartsWith dataProtoB64 body then env.lossy body
            else "data:application/proto;base64," ++ String.mk (base64Encode body)
          .obj [("success", .bool false), ("error", .str ("Parse error: " ++ e)),
            ("raw_response", .str raw)]
    else
      .obj [("success", .bool false), ("status_code", .num status),
        ("error", .str "HTTP error")]

/-! ## Batch executor -/

/-- Environment of `batch_reset_credits`: the UUID syntax check
(`Uuid::parse_str`, external crate) and the per-item operation
`reset_credits_internal` (token handling plus the remote call). -/
structure BatchEnv where
  isValidUuid : String → Bool
  runItem : String → Except String JVal

/-- The entry produced for one submitted id by `batch_reset_credits`
(api_commands.rs:1268–1302): a syntactically invalid id yields an
`Invalid UUID` failure entry immediately; a valid id runs the item
operation and wraps its outcome. -/
def batchItemResult (env : BatchEnv) (id : String) : JVal :=
  if env.isValidUuid id then
    let result : JVal :=
      match env.runItem id with
      | .ok res =>
        let seatUsed := Option.getD (Option.bind (res.getField "seat_count_used") JVal.asI64) 0
        .obj [("success", .bool true), ("data", res), ("seat_count_used", .num seatUsed)]
      | .error err => .obj [("success", .bool false), ("error", .str err)]
    .obj [("id", .str id), ("result", result)]
  else
    .obj [("id", .str id),
      ("result", .obj [("success", .bool false), ("error", .str "Invalid UUID")])]

/-- The ids on which `batch_reset_credits` invokes the item operation
(and hence the network): exactly the syntactically valid ones. -/
def batchCalls (env : BatchEnv) (ids : List String) : List String :=
  ids.filter env.isValidUuid

/-- The success test applied to one collected entry when computing
`success_count` (api_commands.rs:1309–1314). -/
def batchEntryOk (entry : JVal) : Bool :=
  Option.getD (Option.bind (Option.bind (entry.getField "result")
    (fun r => r.getField "success")) JVal.asBool) false

/-- `batch_reset_credits` (api_commands.rs:1255–1328): one entry per
submitted id, a derived success count and the total count.  The
source collects entries in completion order (`buffer_unordered`);
the embedding uses submission order, which fixes one admissible
completion order. -/
def batch_reset_credits (env : BatchEnv) (ids : List String) : JVal :=
  let results := ids.map (batchItemResult env)
  .obj [("results", .arr results),
    ("success_count", .num (results.filter batchEntryOk).length),
    ("total_count", .num ids.length)]

/-! ## Settings and concurrency ceilings -/

/-- The settings fields consumed by the analysed code
(models/config.rs). -/
structure Settings where
  seat_count_options : List Int
  concurrent_limit : Nat
  unlimited_concurrent_refresh : Bool
  use_lightweight_api : Bool

/-- The concurrency ceiling computed by `batch_refresh_tokens`
(api_commands.rs:1343–1347): the full list size under
`unlimited_concurrent_refresh`, otherwise `concurrent_limit`
clamped to at least 1. -/
def batch_refresh_tokens_max_concurrent (settings : Settings) (ids : List String) : Nat :=
  if settings.unlimited_concurrent_refresh then ids.length
  else max settings.concurrent_limit 1

/-- The concurrency ceiling used by `batch_reset_credits`
(api_commands.rs:1263): the hard-coded constant `MAX_CONCURRENT`. -/
def batch_reset_credits_max_concurrent : Nat := 5

/-- Follows the spec text (§4.4, §6): the ceiling a batch run is meant
to use is selected from external settings — the full list size when the
unlimited option is on, otherwise the configured limit (at least 1). -/
def spec_selected_ceiling (settings : Settings) (ids : List String) : Nat :=
  if settings.unlimited_concurrent_refresh then ids.length
  else max settings.concurrent_limit 1

/-! ## Seat-count selection -/

/-- The seat-count selection of `WindsurfService::reset_credits`
(windsurf_service.rs:1011–1029): an explicit `seat_count` wins;
with no configured options the default is 18; a remembered
`last_seat_count` found in the options advances to the next option
cyclically; otherwise the first option is used. -/
def reset_credits_select_seat_count (seat_count : Option Int) (last_seat_count : Option Int)
    (seat_count_options : List Int) : Int :=
  match seat_count with
  | some sc => sc
  | none =>
    if seat_count_options.isEmpty then 18
    else
      match last_seat_count with
      | some last =>
        match seat_count_options.findIdx? (fun x => x == last) with
        | some current_idx =>
          seat_count_options.getD ((current_idx + 1) % seat_count_options.length) 0
        | none => seat_count_options.getD 0 0
      | none => seat_count_options.getD 0 0

/-! ## Token lifecycle: `ensure_valid_token_with_force` -/

/-- The account fields touched by the token lifecycle
(a slice of `models::Account`). -/
structure Account where
  email : String
  token : Option String
  refresh_token : Option String
  token_expires_at : Option Int

/-- The credential-exchange service (`AuthService`, external
collaborator per spec §6): refresh-token exchange and full
re-authentication, each returning `(token, refresh_token, expires_at)`. -/
structure AuthEnv where
  refreshToken : String → Except String (String × String × Int)
  signIn : String → String → Except String (String × String × Int)

/-- The account store operations used by the token lifecycle
(external collaborator per spec §6). -/
structure StoreEnv where
  getDecryptedPassword : Except String String
  updateAccountTokens : String × String × Int → Except String Unit

/-- Modelled from the spec: `AuthService::is_token_expired` is outside
the analysed slice; §4.2 states the expiry observation as wall-clock
`now >= expires_at`. -/
def is_token_expired (now expires_at : Int) : Bool := expires_at ≤ now

/-- One network exchange performed by the token lifecycle. -/
inductive ExchangeEv where
  | refreshExchange
  | signInExchange
deriving DecidableEq, Repr

/-- `ensure_valid_token_with_force` (api_commands.rs:44–99), returning
the updated account together with the trace of network exchanges.
When not forced and a token plus expiry are present and unexpired,
nothing happens; otherwise one refresh-or-reauthenticate chain runs
(refresh first when a refresh token exists, full sign-in as fallback
or when no refresh token exists), and on success the new tuple is
written to the store and into the in-memory account. -/
def ensure_valid_token_with_force (store : StoreEnv) (auth : AuthEnv) (now : Int)
    (account : Account) (force_refresh : Bool) :
    Except String Account × List ExchangeEv :=
  if !force_refresh && account.token.isSome && account.token_expires_at.isSome
      && !(is_token_expired now (account.token_expires_at.getD 0)) then
    (.ok account, [])
  else
    let chain : Except String (String × String × Int) × List ExchangeEv :=
      match account.refresh_token with
      | some rt =>
        match auth.refreshToken rt with
        | .ok r => (.ok r, [.refreshExchange])
        | .error _ =>
          match store.getDecryptedPassword with
          | .error e => (.error e, [.refreshExchange])
          | .ok pw =>
            match auth.signIn account.email pw with
            | .ok r => (.ok r, [.refreshExchange, .signInExchange])
            | .error e => (.error e, [.refreshExchange, .signInExchange])
      | none =>
        match store.getDecryptedPassword with
        | .error e => (.error e, [])
        | .ok pw =>
          match auth.signIn account.email pw with
          | .ok r => (.ok r, [.signInExchange])
          | .error e => (.error e, [.signInExchange])
    match chain with
    | (.error e, evs) => (.error e, evs)
    | (.ok (t, rt, exp), evs) =>
      match store.updateAccountTokens (t, rt, exp) with
      | .error e => (.error e, evs)
      | .ok () =>
        (.ok { account with
                token := some t, refresh_token := some rt,
                token_expires_at := some exp }, evs)

/-! ## `get_current_user`: forced refresh and single retry on 401 -/

/-- Observable steps of one `get_current_user` call: a token-lifecycle
invocation (with its force flag), an upstream request, a store write of
extracted account fields. -/
inductive CUEvent where
  | ensure (force : Bool)
  | upstreamCall
  | storeWrite
deriving DecidableEq, Repr

/-- Environment of `get_current_user_internal`: the token lifecycle
(invoked with `force = is_retry`), the upstream service (outcome of the
`k`-th request over the whole call, counting the retry), and the
`use_lightweight_api` setting choosing between `get_plan_status` and
the full `get_current_user` service call. -/
structure CUEnv where
  ensureResult : Bool → Except String Unit
  upstream : Nat → Except String JVal
  useLightweight : Bool

/-- The compatibility view built by the lightweight branch on success
(api_commands.rs:1076–1091): plan name, summed quotas and plan end
repackaged under `user_info`.  Wall-clock timestamp abstracted to
`null`. -/
def lightweightView (result : JVal) : JVal :=
  let planStatus := result.getField "plan_status"
  let fld := fun (k : String) => Option.bind planStatus (fun ps => ps.getField k)
  let planName := Option.getD (Option.bind (fld "plan_name")
    (fun v => match v with | .str s => some s | _ => none)) ""
  let usedQuota := Option.getD (Option.bind (fld "used_prompt_credits") JVal.asI64) 0 +
    Option.getD (Option.bind (fld "used_flex_credits") JVal.asI64) 0
  let totalQuota := Option.getD (Option.bind (fld "available_flex_credits") JVal.asI64) 0 +
    Option.getD (Option.bind (fld "available_prompt_credits") JVal.asI64) 0
  let expiresAt := Option.getD (Option.bind (fld "plan_end") JVal.asI64) 0
  .obj [("success", .bool true), ("lightweight", .bool true),
    ("user_info", .obj [("plan", .obj [("plan_name", .str planName)]),
      ("subscription", .obj [("used_quota", .num usedQuota), ("quota", .num totalQuota),
        ("expires_at", .num expiresAt)])]),
    ("plan_status", Option.getD planStatus .null), ("timestamp", .null)]

/-- `get_current_user_internal` (api_commands.rs:978–1171), with `calls`
upstream requests already issued.  The token lifecycle runs first
(forced exactly when this is the retry); the upstream result is checked
for status 401, and a first 401 re-enters the whole function once with
`is_retry = true`; a 401 on the retry falls through and is returned to
the caller like any other result.  Store writes happen only on the
lightweight success path with a `plan_status` present, or on the full
path when `user_info` is present. -/
def getCurrentUserInternal (env : CUEnv) (calls : Nat) (is_retry : Bool) :
    Except String JVal × List CUEvent :=
  match env.ensureResult is_retry with
  | .error e => (.error e, [.ensure is_retry])
  | .ok () =>
    match env.upstream calls with
    | .error e => (.error e, [.ensure is_retry, .upstreamCall])
    | .ok result =>
      let status := Option.getD (Option.bind (result.getField "status_code") JVal.asU64) 0
      if h : status == 401 && !is_retry then
        let next := getCurrentUserInternal env (calls + 1) true
        (next.1, .ensure is_retry :: .upstreamCall :: next.2)
      else
        if env.useLightweight then
          let success := Option.getD (Option.bind (result.getField "success") JVal.asBool) false
          if success then
            if (result.getField "plan_status").isSome then
              (.ok (lightweightView result), [.ensure is_retry, .upstreamCall, .storeWrite])
            else (.ok (lightweightView result), [.ensure is_retry, .upstreamCall])
          else (.ok result, [.ensure is_retry, .upstreamCall])
        else
          if (result.getField "user_info").isSome then
            (.ok result, [.ensure is_retry, .upstreamCall, .storeWrite])
          else (.ok result, [.ensure is_retry, .upstreamCall])
termination_by (if is_retry then 0 else 1)
decreasing_by
  simp only [Bool.and_eq_true, Bool.not_eq_eq_eq_not, Bool.not_true] at h
  simp [h.2]

/-! ## Theorems -/

/-- C9 counterexample: with `concurrent_limit = 7` and the unlimited
option off, the externally selected ceiling for a three-element batch
is 7, but `batch_reset_credits` runs under its hard-coded ceiling of 5,
so the claim that every batch operation uses the externally selected
ceiling is false. -/
theorem c9_counterexample :
    batch_reset_credits_max_concurrent ≠
      spec_selected_ceiling ⟨[], 7, false, false⟩ ["a", "b", "c"] := by
  decide

/-- C9 (amended): `batch_refresh_tokens` runs under the ceiling
selected from external settings — the full list size when
`unlimited_concurrent_refresh` is set, otherwise `concurrent_limit`
clamped to at least 1 — while `batch_reset_credits` always runs under
the fixed ceiling 5, whatever the settings. -/
theorem c9_ceiling_selection (settings : Settings) (ids : List String) :
    batch_refresh_tokens_max_concurrent settings ids = spec_selected_ceiling settings ids ∧
      batch_reset_credits_max_concurrent = 5 :=
  ⟨rfl, rfl⟩

/-- C10: the seat count used by `reset_credits` is selected
deterministically — an explicit `seat_count` always wins; with an empty
options list the default 18 is used; a remembered last seat count that
occurs in the options (first occurrence at index `i`) advances to the
next option in cyclic order; otherwise the first option is used. -/
theorem c10_seat_count_selection (seat_count last : Option Int) (opts : List Int) :
    (∀ v, seat_count = some v →
      reset_credits_select_seat_count seat_count last opts = v) ∧
    (seat_count = none → opts = [] →
      reset_credits_select_seat_count seat_count last opts = 18) ∧
    (seat_count = none → ∀ l i, last = some l →
      opts.findIdx? (fun x => x == l) = some i →
      reset_credits_select_seat_count seat_count last opts = (opts ++ opts).getD (i + 1) 0) ∧
    (seat_count = none → opts ≠ [] →
      (last = none ∨ ∀ l, last = some l → l ∉ opts) →
      reset_credits_select_seat_count seat_count last opts = opts.getD 0 0) := by
  refine ⟨?_, ?_, ?_, ?_⟩
  · rintro v rfl
    rfl
  · rintro rfl rfl
    rfl
  · rintro rfl l i rfl hfind
    have hi : i < opts.length := (List.findIdx?_eq_some_iff_findIdx_eq.mp hfind).1
    have hne : opts.isEmpty = false := by
      cases opts
      · simp at hi
      · rfl
    simp only [reset_credits_select_seat_count, hne, Bool.false_eq_true, if_false, hfind]
    rcases Nat.lt_or_ge (i + 1) opts.length with hlt | hge
    · rw [Nat.mod_eq_of_lt hlt]
      simp only [List.getD_eq_getElem?_getD]
      rw [List.getElem?_append, if_pos hlt]
    · have heq : i + 1 = opts.length := by omega
      rw [heq, Nat.mod_self]
      simp only [List.getD_eq_getElem?_getD]
      rw [List.getElem?_append, if_neg (by omega), Nat.sub_self]
  · rintro rfl hne hmiss
    have hempty : opts.isEmpty = false := by
      cases opts
      · simp at hne
      · rfl
    rcases hmiss with rfl | hnotin
    · simp [reset_credits_select_seat_count, hempty]
    · cases hl : last with
      | none => simp [reset_credits_select_seat_count, hempty]
      | some l =>
        have hfind : opts.findIdx? (fun x => x == l) = none := by
          rw [List.findIdx?_eq_none_iff]
          intro x hx
          simp only [beq_eq_false_iff_ne, ne_eq]
          intro hxl
          exact hnotin l hl (hxl ▸ hx)
        simp [reset_credits_select_seat_count, hempty, hfind]

/-- C10 witness: with no explicit seat count, options `[18, 19, 20]`
and last seat count 20 (index 2), the cyclic successor 18 is selected. -/
theorem c10_witness :
    reset_credits_select_seat_count none (some 20) [18, 19, 20] = 18 := by
  have h := (c10_seat_count_selection none (some 20) [18, 19, 20]).2.2.1
    rfl 20 2 rfl (by decide)
  simpa using h

theorem varint_16384 : varint 16384 = [128, 128, 1] := by
  rw [varint.eq_def]
  norm_num
  rw [varint.eq_def]
  norm_num
  rw [varint.eq_def]
  norm_num

/-- On lengths below `2 ^ 14` the capped prefix agrees with the full
varint. -/
theorem encodeLen2_eq_varint (n : Nat) (h : n < 2 ^ 14) : encodeLen2 n = varint n := by
  by_cases h1 : n < 128
  · rw [encodeLen2, if_pos h1, varint.eq_def, if_pos h1]
  · rw [encodeLen2, if_neg h1, varint.eq_def, if_neg h1, varint.eq_def,
      if_pos (by omega), Nat.mod_eq_of_lt (show n / 128 < 256 by omega)]

/-- C7 counterexample: on a 16384-byte value the encoder's two-byte
length prefix is not the varint of the length (the varint needs three
bytes), so the claim fails for lengths at and above `2 ^ 14`. -/
theorem c7_counterexample :
    encode_string_field 1 (List.replicate 16384 97) ≠
      encode_length_delimited_spec 1 (List.replicate 16384 97) := by
  intro h
  have h2 := congrArg List.length h
  simp only [encode_string_field, encode_length_delimited_spec, List.length_cons,
    List.length_append, List.length_replicate, varint_16384, encodeLen2] at h2
  norm_num at h2

/-- C7 (amended): for values shorter than `2 ^ 14` bytes the encoders
emit `tag` + full canonical varint length + value bytes; at `2 ^ 14`
and beyond the two-byte prefix truncates the length (see the
counterexample). -/
theorem c7_length_prefix (token value : List Nat) (field_num : Nat) (seat_count : Int)
    (h1 : token.length < 2 ^ 14) (h2 : value.length < 2 ^ 14) :
    build_request_body token seat_count =
      10 :: varint token.length ++ token ++ [16, (seat_count % 256).toNat] ∧
    encode_string_field field_num value =
      (field_num * 8 % 256 + 2) :: varint value.length ++ value := by
  constructor
  · rw [build_request_body, encodeLen2_eq_varint _ h1]
  · rw [encode_string_field, encodeLen2_eq_varint _ h2]

/-- C7 witness: a 200-byte token (two-byte varint range) and a 3-byte
value, with concrete varint prefixes. -/
theorem c7_witness :
    build_request_body (List.replicate 200 97) 5 =
      10 :: varint 200 ++ List.replicate 200 97 ++ [16, 5] ∧
    encode_string_field 2 [97, 98, 99] = 18 :: varint 3 ++ [97, 98, 99] := by
  have h := c7_length_prefix (List.replicate 200 97) [97, 98, 99] 2 5
    (by simp only [List.length_replicate]; norm_num) (by norm_num)
  simp only [List.length_replicate] at h
  norm_num at h
  simpa only [List.append_assoc] using h

/-- C5: the batch executor returns exactly one entry per submitted id
(the `i`-th entry carrying the `i`-th id) plus the derived success and
total counts; a syntactically invalid id yields the `Invalid UUID`
validation failure, is absent from the set of ids on which the item
operation (and hence the network) runs, and its entry does not depend
on the operation at all; and each entry depends only on its own id's
validity and operation outcome, so no item's failure can affect a
sibling. -/
theorem c5_batch_reset_credits (env : BatchEnv) (ids : List String) :
    (batch_reset_credits env ids).getField "results" =
      some (.arr (ids.map (batchItemResult env))) ∧
    (ids.map (batchItemResult env)).length = ids.length ∧
    (batch_reset_credits env ids).getField "total_count" = some (.num ids.length) ∧
    (batch_reset_credits env ids).getField "success_count" =
      some (.num ((ids.map (batchItemResult env)).filter batchEntryOk).length) ∧
    (∀ i, i < ids.length →
      ((ids.map (batchItemResult env)).getD i .null).getField "id" =
        some (.str (ids.getD i ""))) ∧
    (∀ id, env.isValidUuid id = false →
      batchItemResult env id =
        .obj [("id", .str id),
          ("result", .obj [("success", .bool false), ("error", .str "Invalid UUID")])] ∧
      id ∉ batchCalls env ids) ∧
    (∀ env2 : BatchEnv, ∀ id, env2.isValidUuid id = env.isValidUuid id →
      env2.runItem id = env.runItem id →
      batchItemResult env2 id = batchItemResult env id) := by
  refine ⟨rfl, List.length_map _ _, rfl, rfl, ?_, ?_, ?_⟩
  · intro i hi
    simp only [List.getD_eq_getElem?_getD, List.getElem?_map, List.getElem?_eq_getElem hi]
    simp only [Option.map_some', Option.getD_some]
    unfold batchItemResult
    split <;> rfl
  · intro id hid
    constructor
    · simp [batchItemResult, hid]
    · intro hmem
      have := List.of_mem_filter hmem
      rw [hid] at this
      exact Bool.false_ne_true this
  · intro env2 id hvalid hrun
    simp only [batchItemResult, hvalid, hrun]

/-- C5 witness: a batch of three ids, the middle one invalid, under an
environment that accepts exactly `"a"` and `"c"`; the invalid id gets
the validation-error entry and is not among the operation calls. -/
theorem c5_witness :
    (batchItemResult
        ⟨fun s => s == "a" || s == "c", fun _ => .ok (.obj [])⟩ "%bad%" =
      .obj [("id", .str "%bad%"),
        ("result", .obj [("success", .bool false), ("error", .str "Invalid UUID")])]) ∧
    "%bad%" ∉ batchCalls ⟨fun s => s == "a" || s == "c", fun _ => .ok (.obj [])⟩
      ["a", "%bad%", "c"] := by
  exact (c5_batch_reset_credits
    ⟨fun s => s == "a" || s == "c", fun _ => .ok (.obj [])⟩
    ["a", "%bad%", "c"]).2.2.2.2.2.1 "%bad%" rfl

/-- C3 counterexample: in `get_team_credit_entries` an HTTP-200 response
whose body fails to decode produces a result whose `success` field is
`false`, so the decode failure does downgrade the HTTP-200 there,
contrary to the claim that the returned result still reports success. -/
theorem c3_counterexample :
    (get_team_credit_entries_on_response c3FailEnv (.response 200 [255])).getField
        "success" = some (.bool false) := by
  rfl

/-- C3 (amended): a decode failure on a successful transport never
escalates into an operation error, and the raw bytes are always
preserved alongside the decode error — in `update_seats` the attempt is
even still classified as a success and its record keeps the raw bytes,
while in `get_team_credit_entries` the structured result reports
`success = false` but carries the raw response (base64-wrapped unless
already in that form) and the parse error. -/
theorem c3_decode_failure_handling (env : SeatEnv) (cenv : CreditEnv)
    (status : Nat) (body : List Nat) (e : String)
    (hst : status = 200 ∨ status = 204) (hbody : body ≠ [])
    (hparse : env.parseSeats body = .error e)
    (hparse2 : cenv.parseCredits body = .error e) :
    classifySeatAttempt env status body = true ∧
    (∀ i, env.send i = .response status body →
      (mkAttempt env i).raw_response = some (.bytes body) ∧
      (mkAttempt env i).status_code = some status) ∧
    (status = 200 →
      (get_team_credit_entries_on_response cenv (.response status body)).getField
          "success" = some (.bool false) ∧
      (get_team_credit_entries_on_response cenv (.response status body)).getField
          "raw_response" =
        some (.str (if listStartsWith dataProtoB64 body then cenv.lossy body
          else "data:application/proto;base64," ++ String.mk (base64Encode body))) ∧
      (get_team_credit_entries_on_response cenv (.response status body)).getField
          "error" = some (.str ("Parse error: " ++ e))) := by
  have hlen : 0 < body.length := List.length_pos.mpr hbody
  have hstb : (status == 200 || status == 204) = true := by
    rcases hst with rfl | rfl <;> rfl
  refine ⟨?_, ?_, ?_⟩
  · simp only [classifySeatAttempt, hstb, if_true, hparse]
    simp only [if_pos hlen]
  · intro i hsend
    refine ⟨?_, ?_⟩
    · simp only [mkAttempt, hsend, hstb, hparse]
      split <;> rfl
    · simp [mkAttempt, hsend]
  · rintro rfl
    simp only [get_team_credit_entries_on_response, hparse2]
    have hne : (body.length == 0) = false := by
      simp only [beq_eq_false_iff_ne, ne_eq]
      omega
    simp only [hne, Bool.false_eq_true, if_false, if_true]
    refine ⟨rfl, rfl, rfl⟩

/-- C3 witness: a one-byte undecodable body on HTTP 200, under concrete
environments; both handlers keep the raw byte, and in `update_seats`
the attempt is still a success. -/
theorem c3_witness :
    classifySeatAttempt
      ⟨fun _ => .response 200 [255], fun _ => .error "bad", fun _ => 0⟩ 200 [255] = true ∧
    (mkAttempt ⟨fun _ => .response 200 [255], fun _ => .error "bad", fun _ => 0⟩
      0).raw_response = some (.bytes [255]) := by
  have h := c3_decode_failure_handling
    ⟨fun _ => .response 200 [255], fun _ => .error "bad", fun _ => 0⟩
    ⟨fun _ => .error "bad", fun _ => ""⟩ 200 [255] "bad" (Or.inl rfl) (by simp) rfl rfl
  exact ⟨h.1, (h.2.1 0 rfl).1⟩

theorem attemptsTaken_le (env : SeatEnv) : ∀ n i, attemptsTaken env n i ≤ n := by
  intro n
  induction n with
  | zero => intro i; simp [attemptsTaken]
  | succ m ih =>
    intro i
    simp only [attemptsTaken]
    split
    · omega
    · have := ih (i + 1)
      omega

theorem attemptsTaken_pos (env : SeatEnv) (n i : Nat) (h : 0 < n) :
    0 < attemptsTaken env n i := by
  cases n with
  | zero => omega
  | succ m =>
    simp only [attemptsTaken]
    split
    · omega
    · omega

theorem updateSeatsLoop_spec (env : SeatEnv) :
    ∀ n i,
      (updateSeatsLoop env n i).1.attempts =
        (List.range' i (attemptsTaken env n i)).map (mkAttempt env) ∧
      (updateSeatsLoop env n i).2 =
        List.intersperse (.sleepSec 1)
          ((List.range' i (attemptsTaken env n i)).map RetryEv.attempt) ∧
      ((updateSeatsLoop env n i).1.success = true ↔
        0 < attemptsTaken env n i ∧
          attemptOk env (i + attemptsTaken env n i - 1) = true) ∧
      (∀ j, j + 1 < attemptsTaken env n i → attemptOk env (i + j) = false) ∧
      (attemptsTaken env n i < n →
        0 < attemptsTaken env n i ∧
          attemptOk env (i + attemptsTaken env n i - 1) = true) := by
  intro n
  induction n with
  | zero =>
    intro i
    refine ⟨rfl, rfl, by simp [updateSeatsLoop, attemptsTaken], ?_, ?_⟩
    · intro j hj
      simp [attemptsTaken] at hj
    · intro h
      simp [attemptsTaken] at h
  | succ m ih =>
    intro i
    by_cases hok : attemptOk env i = true
    · have hk : attemptsTaken env (m + 1) i = 1 := by
        simp [attemptsTaken, hok]
      have hloop : updateSeatsLoop env (m + 1) i =
          (⟨true, [mkAttempt env i]⟩, [.attempt i]) := by
        simp [updateSeatsLoop, hok]
      refine ⟨?_, ?_, ?_, ?_, ?_⟩
      · rw [hloop, hk]
        simp
      · rw [hloop, hk]
        simp
      · rw [hloop, hk]
        simp [hok]
      · intro j hj
        rw [hk] at hj
        omega
      · intro _
        rw [hk]
        simpa using hok
    · have hokf : attemptOk env i = false := by
        simpa using hok
      cases m with
      | zero =>
        have hk : attemptsTaken env 1 i = 1 := by
          simp [attemptsTaken, hokf]
        have hloop : updateSeatsLoop env 1 i =
            (⟨false, [mkAttempt env i]⟩, [.attempt i]) := by
          simp [updateSeatsLoop, hokf]
        refine ⟨?_, ?_, ?_, ?_, ?_⟩
        · rw [hloop, hk]
          simp
        · rw [hloop, hk]
          simp
        · rw [hloop, hk]
          simp [hokf]
        · intro j hj
          rw [hk] at hj
          omega
        · intro h
          rw [hk] at h
          omega
      | succ p =>
        have hkpos : 0 < attemptsTaken env (p + 1) (i + 1) :=
          attemptsTaken_pos env (p + 1) (i + 1) (Nat.succ_pos p)
        obtain ⟨q, hq⟩ : ∃ q, attemptsTaken env (p + 1) (i + 1) = q + 1 :=
          ⟨attemptsTaken env (p + 1) (i + 1) - 1, by omega⟩
        have hk : attemptsTaken env (p + 1 + 1) i =
            1 + attemptsTaken env (p + 1) (i + 1) := by
          simp [attemptsTaken, hokf]
        have hloop : updateSeatsLoop env (p + 1 + 1) i =
            (⟨(updateSeatsLoop env (p + 1) (i + 1)).1.success,
                mkAttempt env i :: (updateSeatsLoop env (p + 1) (i + 1)).1.attempts⟩,
              .attempt i :: .sleepSec 1 :: (updateSeatsLoop env (p + 1) (i + 1)).2) := by
          simp [updateSeatsLoop, hokf]
        obtain ⟨iha, ihe, ihs, ihstop, ihearly⟩ := ih (i + 1)
        refine ⟨?_, ?_, ?_, ?_, ?_⟩
        · rw [hloop, hk]
          have : 1 + attemptsTaken env (p + 1) (i + 1) =
              attemptsTaken env (p + 1) (i + 1) + 1 := Nat.add_comm _ _
          rw [this, List.range'_succ]
          simp only [List.map_cons]
          rw [iha]
        · rw [hloop, hk]
          have h1 : 1 + attemptsTaken env (p + 1) (i + 1) =
              attemptsTaken env (p + 1) (i + 1) + 1 := Nat.add_comm _ _
          rw [h1, List.range'_succ, hq, List.range'_succ]
          simp only [List.map_cons]
          rw [List.intersperse_cons₂]
          rw [ihe, hq, List.range'_succ]
          simp
        · rw [hloop, hk]
          simp only []
          rw [ihs]
          constructor
          · rintro ⟨hpos, hlast⟩
            refine ⟨by omega, ?_⟩
            have : i + (1 + attemptsTaken env (p + 1) (i + 1)) - 1 =
                i + 1 + attemptsTaken env (p + 1) (i + 1) - 1 := by omega
            rw [this]
            exact hlast
          · rintro ⟨hpos, hlast⟩
            refine ⟨hkpos, ?_⟩
            have : i + 1 + attemptsTaken env (p + 1) (i + 1) - 1 =
                i + (1 + attemptsTaken env (p + 1) (i + 1)) - 1 := by omega
            rw [this]
            exact hlast
        · intro j hj
          rw [hk] at hj
          cases j with
          | zero => simpa using hokf
          | succ j2 =>
            have : i + (j2 + 1) = i + 1 + j2 := by omega
            rw [this]
            exact ihstop j2 (by omega)
        · intro h
          rw [hk] at h
          have h2 : attemptsTaken env (p + 1) (i + 1) < p + 1 := by omega
          obtain ⟨hpos, hlast⟩ := ihearly h2
          refine ⟨by omega, ?_⟩
          rw [hk]
          have : i + (1 + attemptsTaken env (p + 1) (i + 1)) - 1 =
              i + 1 + attemptsTaken env (p + 1) (i + 1) - 1 := by omega
          rw [this]
          exact hlast

/-- C4: `update_seats` performs at most `retry_times` attempts, appends
exactly one `AttemptResult` record (index, status code, raw response,
error, timestamp) per attempt in order, sleeps one second exactly
between consecutive attempts, stops early only at an attempt classified
successful, and reports success exactly when its last attempt was
classified successful. -/
theorem c4_update_seats_retry (env : SeatEnv) (retry_times : Nat) :
    attemptsTaken env retry_times 0 ≤ retry_times ∧
    (update_seats env retry_times).1.attempts =
      (List.range (attemptsTaken env retry_times 0)).map (mkAttempt env) ∧
    (update_seats env retry_times).1.attempts.length = attemptsTaken env retry_times 0 ∧
    (update_seats env retry_times).2 =
      List.intersperse (.sleepSec 1)
        ((List.range (attemptsTaken env retry_times 0)).map RetryEv.attempt) ∧
    (∀ j, j + 1 < attemptsTaken env retry_times 0 → attemptOk env j = false) ∧
    (attemptsTaken env retry_times 0 < retry_times →
      0 < attemptsTaken env retry_times 0 ∧
        attemptOk env (attemptsTaken env retry_times 0 - 1) = true) ∧
    ((update_seats env retry_times).1.success = true ↔
      0 < attemptsTaken env retry_times 0 ∧
        attemptOk env (attemptsTaken env retry_times 0 - 1) = true) := by
  obtain ⟨ha, he, hs, hstop, hearly⟩ := updateSeatsLoop_spec env retry_times 0
  rw [List.range_eq_range']
  simp only [update_seats]
  refine ⟨attemptsTaken_le env retry_times 0, ha, ?_, he, ?_, ?_, ?_⟩
  · rw [ha]
    simp
  · intro j hj
    simpa using hstop j hj
  · intro h
    simpa using hearly h
  · simpa using hs

/-- C4 witness: three allowed attempts against a transport that fails
once and then returns an empty HTTP 200; two attempts are made with one
sleep between them, and the run succeeds. -/
theorem c4_witness :
    attemptsTaken
      ⟨fun i => if i == 0 then .transportErr "down" else .response 200 [],
        fun _ => .error "unused", fun _ => 0⟩ 3 0 ≤ 3 ∧
    (update_seats
      ⟨fun i => if i == 0 then .transportErr "down" else .response 200 [],
        fun _ => .error "unused", fun _ => 0⟩ 3).1.attempts.length = 2 := by
  have h := c4_update_seats_retry
    ⟨fun i => if i == 0 then .transportErr "down" else .response 200 [],
      fun _ => .error "unused", fun _ => 0⟩ 3
  refine ⟨h.1, ?_⟩
  rw [h.2.2.1]
  rfl

/-- C2: with the account store behaving per its contract (password
decryption and token persistence succeed), `ensure_valid_token_with_force`
is a no-op with zero network exchanges when not forced and a token plus
expiry are present and unexpired; in every other case it performs
exactly one exchange chain — the refresh exchange when a refresh token
exists (succeeding via refresh alone touches nothing else), falling
back to one re-authentication with the decrypted password on refresh
failure or when no refresh token exists — and it returns an error
exactly when the refresh was unavailable-or-failing and the
re-authentication also failed. -/
theorem c2_ensure_valid (store : StoreEnv) (auth : AuthEnv) (now : Int) (account : Account)
    (force : Bool) (pw : String)
    (hpw : store.getDecryptedPassword = .ok pw)
    (hupd : ∀ x, store.updateAccountTokens x = .ok ()) :
    (force = false → account.token.isSome → account.token_expires_at.isSome →
      is_token_expired now (account.token_expires_at.getD 0) = false →
      ensure_valid_token_with_force store auth now account force = (.ok account, [])) ∧
    (force = true ∨ account.token = none ∨ account.token_expires_at = none ∨
        is_token_expired now (account.token_expires_at.getD 0) = true →
      (∀ rt r, account.refresh_token = some rt → auth.refreshToken rt = .ok r →
        ensure_valid_token_with_force store auth now account force =
          (.ok { account with
                  token := some r.1, refresh_token := some r.2.1,
                  token_expires_at := some r.2.2 }, [.refreshExchange])) ∧
      (∀ rt e, account.refresh_token = some rt → auth.refreshToken rt = .error e →
        (ensure_valid_token_with_force store auth now account force).2 =
          [.refreshExchange, .signInExchange]) ∧
      (account.refresh_token = none →
        (ensure_valid_token_with_force store auth now account force).2 =
          [.signInExchange]) ∧
      ((∃ e, (ensure_valid_token_with_force store auth now account force).1 = .error e) ↔
        (∀ rt, account.refresh_token = some rt → ∃ e, auth.refreshToken rt = .error e) ∧
          ∃ e, auth.signIn account.email pw = .error e)) := by
  have hok : ∀ rt r, account.refresh_token = some rt → auth.refreshToken rt = .ok r →
      (!force && account.token.isSome && account.token_expires_at.isSome
        && !(is_token_expired now (account.token_expires_at.getD 0))) = false →
      ensure_valid_token_with_force store auth now account force =
        (.ok { account with
                token := some r.1, refresh_token := some r.2.1,
                token_expires_at := some r.2.2 }, [.refreshExchange]) := by
    intro rt r hrt hr hcond
    rw [ensure_valid_token_with_force, if_neg (by simp [hcond])]
    simp [hrt, hr, hupd]
  have herr_ok : ∀ rt e r, account.refresh_token = some rt →
      auth.refreshToken rt = .error e → auth.signIn account.email pw = .ok r →
      (!force && account.token.isSome && account.token_expires_at.isSome
        && !(is_token_expired now (account.token_expires_at.getD 0))) = false →
      ensure_valid_token_with_force store auth now account force =
        (.ok { account with
                token := some r.1, refresh_token := some r.2.1,
                token_expires_at := some r.2.2 },
          [.refreshExchange, .signInExchange]) := by
    intro rt e r hrt hr hsi hcond
    rw [ensure_valid_token_with_force, if_neg (by simp [hcond])]
    simp [hrt, hr, hsi, hpw, hupd]
  have herr_err : ∀ rt e e2, account.refresh_token = some rt →
      auth.refreshToken rt = .error e → auth.signIn account.email pw = .error e2 →
      (!force && account.token.isSome && account.token_expires_at.isSome
        && !(is_token_expired now (account.token_expires_at.getD 0))) = false →
      ensure_valid_token_with_force store auth now account force =
        (.error e2, [.refreshExchange, .signInExchange]) := by
    intro rt e e2 hrt hr hsi hcond
    rw [ensure_valid_token_with_force, if_neg (by simp [hcond])]
    simp [hrt, hr, hsi, hpw]
  have hno_ok : ∀ r, account.refresh_token = none →
      auth.signIn account.email pw = .ok r →
      (!force && account.token.isSome && account.token_expires_at.isSome
        && !(is_token_expired now (account.token_expires_at.getD 0))) = false →
      ensure_valid_token_with_force store auth now account force =
        (.ok { account with
                token := some r.1, refresh_token := some r.2.1,
                token_expires_at := some r.2.2 }, [.signInExchange]) := by
    intro r hrt hsi hcond
    rw [ensure_valid_token_with_force, if_neg (by simp [hcond])]
    simp [hrt, hsi, hpw, hupd]
  have hno_err : ∀ e2, account.refresh_token = none →
      auth.signIn account.email pw = .error e2 →
      (!force && account.token.isSome && account.token_expires_at.isSome
        && !(is_token_expired now (account.token_expires_at.getD 0))) = false →
      ensure_valid_token_with_force store auth now account force =
        (.error e2, [.signInExchange]) := by
    intro e2 hrt hsi hcond
    rw [ensure_valid_token_with_force, if_neg (by simp [hcond])]
    simp [hrt, hsi, hpw]
  constructor
  · intro hf ht he hexp
    rw [ensure_valid_token_with_force, if_pos]
    rw [hf, ht, he, hexp]
    rfl
  · intro hforce
    have hcond : (!force && account.token.isSome && account.token_expires_at.isSome
        && !(is_token_expired now (account.token_expires_at.getD 0))) = false := by
      rcases hforce with rfl | h | h | h
      · rfl
      · simp [h]
      · simp [h]
      · simp [h]
    refine ⟨?_, ?_, ?_, ?_⟩
    · intro rt r hrt hr
      exact hok rt r hrt hr hcond
    · intro rt e hrt hr
      cases hsi : auth.signIn account.email pw with
      | ok r => rw [herr_ok rt e r hrt hr hsi hcond]
      | error e2 => rw [herr_err rt e e2 hrt hr hsi hcond]
    · intro hrt
      cases hsi : auth.signIn account.email pw with
      | ok r => rw [hno_ok r hrt hsi hcond]
      | error e2 => rw [hno_err e2 hrt hsi hcond]
    · cases hrt : account.refresh_token with
      | none =>
        cases hsi : auth.signIn account.email pw with
        | ok r =>
          rw [hno_ok r hrt hsi hcond]
          constructor
          · rintro ⟨e, he⟩
            cases he
          · rintro ⟨-, e, he⟩
            exact absurd he (by simp)
        | error e2 =>
          rw [hno_err e2 hrt hsi hcond]
          constructor
          · intro _
            refine ⟨?_, ⟨e2, rfl⟩⟩
            intro rt h
            cases h
          · intro _
            exact ⟨e2, rfl⟩
      | some rt =>
        cases hr : auth.refreshToken rt with
        | ok r =>
          rw [hok rt r hrt hr hcond]
          constructor
          · rintro ⟨e, he⟩
            cases he
          · rintro ⟨hall, -⟩
            obtain ⟨e, he⟩ := hall rt rfl
            simp [hr] at he
        | error e0 =>
          cases hsi : auth.signIn account.email pw with
          | ok r =>
            rw [herr_ok rt e0 r hrt hr hsi hcond]
            constructor
            · rintro ⟨e, he⟩
              cases he
            · rintro ⟨-, e, he⟩
              exact absurd he (by simp)
          | error e2 =>
            rw [herr_err rt e0 e2 hrt hr hsi hcond]
            constructor
            · intro _
              refine ⟨?_, ⟨e2, rfl⟩⟩
              intro rt2 h
              cases h
              exact ⟨e0, hr⟩
            · intro _
              exact ⟨e2, rfl⟩

/-- C2 witness: an expired token with a dead refresh token under a
working store; the chain performs the refresh exchange then the
sign-in fallback. -/
theorem c2_witness :
    (ensure_valid_token_with_force
      ⟨.ok "pw", fun _ => .ok ()⟩
      ⟨fun _ => .error "stale", fun _ _ => .ok ("t2", "r2", 50)⟩
      10
      ⟨"a@b", some "t", some "r", some 0⟩ false).2 =
      [.refreshExchange, .signInExchange] := by
  have h := c2_ensure_valid
    ⟨.ok "pw", fun _ => .ok ()⟩
    ⟨fun _ => .error "stale", fun _ _ => .ok ("t2", "r2", 50)⟩
    10 ⟨"a@b", some "t", some "r", some 0⟩ false "pw" rfl (fun _ => rfl)
  exact (h.2 (by right; right; right; rfl)).2.1 "r" "stale" rfl rfl

/-- C1: when the token lifecycle succeeds and the upstream answers both
requests with a 401-shaped result (status 401, no success, no user
info), `get_current_user_internal` performs exactly two upstream
attempts — the original and one retry — with exactly one forced token
refresh between them, and the second 401 result is surfaced to the
caller unchanged, with no third attempt and no further refresh. -/
theorem c1_forced_retry_once (env : CUEnv) (r0 r1 : JVal)
    (hens : ∀ f, env.ensureResult f = .ok ())
    (h0 : env.upstream 0 = .ok r0) (h1 : env.upstream 1 = .ok r1)
    (h4010 : Option.bind (r0.getField "status_code") JVal.asU64 = some 401)
    (h4011 : Option.bind (r1.getField "status_code") JVal.asU64 = some 401)
    (hsucc : Option.getD (Option.bind (r1.getField "success") JVal.asBool) false = false)
    (huser : (r1.getField "user_info").isSome = false) :
    getCurrentUserInternal env 0 false =
      (.ok r1, [.ensure false, .upstreamCall, .ensure true, .upstreamCall]) := by
  have hretry : getCurrentUserInternal env 1 true =
      (.ok r1, [.ensure true, .upstreamCall]) := by
    rw [getCurrentUserInternal]
    rw [hens true, h1]
    dsimp only
    rw [h4011]
    simp only [Option.getD_some]
    rw [dif_neg (by simp)]
    by_cases hl : env.useLightweight
    · simp [hl, hsucc]
    · simp [hl, huser]
  rw [getCurrentUserInternal]
  rw [hens false, h0]
  dsimp only
  rw [h4010]
  simp only [Option.getD_some]
  rw [dif_pos (by simp)]
  simp only [Nat.zero_add, hretry]

/-- Environment for the C1 witness: the lifecycle always succeeds and
the upstream always answers with a 401-shaped failure. -/
def c1StubEnv : CUEnv :=
  { ensureResult := fun _ => .ok ()
    upstream := fun _ => .ok (.obj [("success", .bool false), ("status_code", .num 401)])
    useLightweight := true }

/-- C1 witness: against an always-401 stub, the call makes exactly two
upstream attempts with one forced refresh and surfaces the second 401
result. -/
theorem c1_witness :
    getCurrentUserInternal c1StubEnv 0 false =
      (.ok (.obj [("success", .bool false), ("status_code", .num 401)]),
        [.ensure false, .upstreamCall, .ensure true, .upstreamCall]) := by
  exact c1_forced_retry_once c1StubEnv
    (.obj [("success", .bool false), ("status_code", .num 401)])
    (.obj [("success", .bool false), ("status_code", .num 401)])
    (fun _ => rfl) rfl rfl rfl rfl rfl rfl

theorem varint_length_pos (n : Nat) : 0 < (varint n).length := by
  rw [varint.eq_def]
  split <;> simp

theorem varint_length_le : ∀ k n : Nat, 0 < k → n < 128 ^ k → (varint n).length ≤ k := by
  intro k
  induction k with
  | zero => omega
  | succ m ih =>
    intro n _ hn
    rw [varint.eq_def]
    by_cases h1 : n < 128
    · simp [h1]
    · rw [if_neg h1]
      simp only [List.length_cons]
      by_cases hm : 0 < m
      · have hdiv : n / 128 < 128 ^ m := by
          rw [Nat.div_lt_iff_lt_mul (by norm_num : (0:Nat) < 128)]
          calc n < 128 ^ (m + 1) := hn
            _ = 128 ^ m * 128 := by rw [Nat.pow_succ]
        have := ih (n / 128) hm hdiv
        omega
      · exfalso
        have hm0 : m = 0 := by omega
        rw [hm0] at hn
        norm_num at hn
        omega

theorem shl_lt_two_pow_63 (n shift : Nat) (hs : shift ≤ 63) (hn : n < 2 ^ (63 - shift)) :
    n <<< shift < 2 ^ 63 := by
  rw [Nat.shiftLeft_eq]
  have h3 : 2 ^ (63 - shift) * 2 ^ shift = 2 ^ 63 := by
    rw [← Nat.pow_add]
    congr 1
    omega
  calc n * 2 ^ shift < 2 ^ (63 - shift) * 2 ^ shift :=
        mul_lt_mul_of_pos_right hn (Nat.pos_pow_of_pos shift (by norm_num))
    _ = 2 ^ 63 := h3

theorem mod128_lor_shl7 (n s : Nat) :
    ((n % 128) <<< s) ||| ((n / 128) <<< (s + 7)) = n <<< s := by
  have h128 : (128 : Nat) = 2 ^ 7 := rfl
  apply Nat.eq_of_testBit_eq
  intro i
  rw [h128, ← Nat.shiftRight_eq_div_pow]
  simp only [Nat.testBit_lor, Nat.testBit_shiftLeft, Nat.testBit_mod_two_pow,
    Nat.testBit_shiftRight]
  rcases Nat.lt_or_ge i s with h1 | h1
  · have d1 : decide (i ≥ s) = false := by simp only [decide_eq_false_iff_not]; omega
    have d2 : decide (i ≥ s + 7) = false := by simp only [decide_eq_false_iff_not]; omega
    simp [d1, d2]
  · rcases Nat.lt_or_ge i (s + 7) with h2 | h2
    · have d1 : decide (i ≥ s) = true := by simp only [decide_eq_true_eq]; omega
      have d2 : decide (i ≥ s + 7) = false := by simp only [decide_eq_false_iff_not]; omega
      have d3 : decide (i - s < 7) = true := by simp only [decide_eq_true_eq]; omega
      simp [d1, d2, d3]
    · have d1 : decide (i ≥ s) = true := by simp only [decide_eq_true_eq]; omega
      have d2 : decide (i ≥ s + 7) = true := by simp only [decide_eq_true_eq]; omega
      have d3 : decide (i - s < 7) = false := by simp only [decide_eq_false_iff_not]; omega
      have harg : 7 + (i - (s + 7)) = i - s := by omega
      simp [d1, d2, d3, harg]

/-- The decoder's varint loop inverts the encoder's varint: reading a
canonical varint followed by anything consumes exactly the varint and
accumulates its value shifted into place (no `usize` wrapping occurs
while the value stays below `2 ^ 63`). -/
theorem readVarint_varint (rest : List Nat) :
    ∀ n acc shift : Nat, shift ≤ 63 → n < 2 ^ (63 - shift) →
      readVarint (varint n ++ rest) acc shift = (acc ||| (n <<< shift), rest) := by
  intro n
  induction n using Nat.strong_induction_on with
  | _ n ih =>
    intro acc shift hs hn
    have hw : n <<< shift < 2 ^ 64 :=
      Nat.lt_trans (shl_lt_two_pow_63 n shift hs hn) (by norm_num)
    by_cases h1 : n < 128
    · rw [varint.eq_def, if_pos h1]
      simp only [List.cons_append, List.nil_append, readVarint]
      have hdiv : n / 128 = 0 := Nat.div_eq_of_lt h1
      rw [hdiv]
      rw [if_pos (by norm_num)]
      rw [Nat.mod_eq_of_lt h1, Nat.mod_eq_of_lt (show shift < 64 by omega)]
      rw [wrap64, Nat.mod_eq_of_lt hw]
      rfl
    · rw [varint.eq_def, if_neg h1]
      simp only [List.cons_append, readVarint]
      have hb1 : (n % 128 + 128) % 128 = n % 128 := by
        rw [Nat.add_mod_right, Nat.mod_mod_of_dvd n (dvd_refl 128)]
      have hb2 : (n % 128 + 128) / 128 = 1 := by
        rw [Nat.add_div_right _ (by norm_num : (0:Nat) < 128)]
        rw [Nat.div_eq_of_lt (Nat.mod_lt n (by norm_num))]
      rw [hb2]
      rw [if_neg (by norm_num)]
      have hs56 : shift ≤ 56 := by
        by_contra hc
        have hle : 63 - shift ≤ 7 := by omega
        have h2 : (2 : Nat) ^ (63 - shift) ≤ 2 ^ 7 :=
          Nat.pow_le_pow_right (by norm_num) hle
        norm_num at h2
        omega
      have hn2 : n / 128 < 2 ^ (63 - (shift + 7)) := by
        rw [Nat.div_lt_iff_lt_mul (by norm_num : (0:Nat) < 128)]
        have he : 2 ^ (63 - (shift + 7)) * 128 = 2 ^ (63 - shift) := by
          rw [show (128 : Nat) = 2 ^ 7 from rfl, ← Nat.pow_add]
          congr 1
          omega
        omega
      have hmod : (n % 128) <<< shift < 2 ^ 64 := by
        refine Nat.lt_trans (shl_lt_two_pow_63 _ shift hs ?_) (by norm_num)
        exact Nat.lt_of_le_of_lt (Nat.mod_le n 128) hn
      rw [hb1, Nat.mod_eq_of_lt (show shift < 64 by omega)]
      rw [wrap64, Nat.mod_eq_of_lt hmod]
      have hih := ih (n / 128) (Nat.div_lt_self (by omega) (by norm_num))
        (acc ||| (n % 128) <<< shift) (shift + 7) (by omega) hn2
      rw [show ((varint (n / 128)).append rest) = varint (n / 128) ++ rest from rfl]
      rw [hih, Nat.lor_assoc, mod128_lor_shl7]

/-- C6 (amended): for field number 1 — the only field the decoder
reports — and any nonempty UTF-8 string (of any representable length),
decoding the length-delimited encoding returns exactly that string:
`deserialize_protobuf_response (serialize_protobuf_string s) = some s`.
The decoder returns `None` for other field numbers, and the encoder
maps the empty string to an empty body which decodes to `None` (see the
counterexample). -/
theorem c6_roundtrip (s : List Nat) (hne : s ≠ []) (hutf : utf8Valid s = true)
    (hlen : s.length < 2 ^ 56) :
    deserialize_protobuf_response (serialize_protobuf_string s) = .ok (some s) := by
  have hie : s.isEmpty = false := by
    cases s with
    | nil => exact absurd rfl hne
    | cons a t => rfl
  have hvp : 0 < (varint s.length).length := varint_length_pos _
  have hvl : (varint s.length).length ≤ 8 := by
    apply varint_length_le 8 s.length (by norm_num)
    have he : (128 : Nat) ^ 8 = 2 ^ 56 := by norm_num
    omega
  have h56 : (2 : Nat) ^ 56 = 72057594037927936 := by norm_num
  have h64 : (2 : Nat) ^ 64 = 18446744073709551616 := by norm_num
  have hrv : readVarint (varint s.length ++ s) 0 0 = (s.length, s) := by
    have h := readVarint_varint s s.length 0 0 (by norm_num) (by norm_num; omega)
    simpa using h
  have hlen0 : s.length ≠ 0 := by
    simpa [List.length_eq_zero] using hne
  rw [serialize_protobuf_string, if_neg (by simp [hie])]
  rw [deserialize_protobuf_response,
    if_neg (by simp only [List.length_cons, List.length_append]; omega)]
  rw [deserLoop.eq_def]
  dsimp only
  rw [hrv]
  dsimp only
  rw [if_pos (show ((10 : Nat) % 8 == 2) = true from rfl)]
  simp only [List.length_append, Nat.add_sub_cancel]
  have hwlt : 0 + 1 + ((varint s.length).length + s.length) < 2 ^ 64 := by omega
  rw [show wrap64 (0 + 1 + (varint s.length).length + s.length) =
      0 + 1 + (varint s.length).length + s.length from
    Nat.mod_eq_of_lt (by omega)]
  rw [if_pos (by simp only [List.length_cons, List.length_append]; omega)]
  rw [if_neg (by omega)]
  rw [List.take_length]
  rw [if_pos (by simp [hutf, hlen0])]

theorem varint_one : varint 1 = [1] := by
  rw [varint.eq_def]
  norm_num

/-- C6 counterexample: the round trip fails as claimed for all field
numbers and all strings — the empty string encodes to an empty body
that decodes to `None` rather than the empty string, and a
length-delimited field with field number 2 and body `"a"` decodes to
`None` instead of yielding field number 2 and `"a"`. -/
theorem c6_counterexample :
    deserialize_protobuf_response (serialize_protobuf_string []) ≠
      .ok (some ([] : List Nat)) ∧
    deserialize_protobuf_response (encode_length_delimited_spec 2 [97]) = .ok none := by
  constructor
  · intro h
    have h2 : deserialize_protobuf_response (serialize_protobuf_string []) = .ok none := rfl
    rw [h2] at h
    simp at h
  · have henc : encode_length_delimited_spec 2 [97] = [18, 1, 97] := by
      rw [encode_length_delimited_spec]
      norm_num [varint_one]
    rw [henc]
    rw [deserialize_protobuf_response, if_neg (by norm_num)]
    rw [deserLoop.eq_def]
    dsimp only
    rw [if_pos (show ((18 : Nat) % 8 == 2) = true from rfl)]
    have hrv : readVarint [1, 97] 0 0 = (1, [97]) := by rfl
    rw [hrv]
    dsimp only
    norm_num [wrap64]
    rw [deserLoop.eq_def]

/-- C6 witness: the one-byte string `"a"` round-trips through the
field-1 encoder and the schema-less decoder. -/
theorem c6_witness :
    deserialize_protobuf_response (serialize_protobuf_string [97]) = .ok (some [97]) :=
  c6_roundtrip [97] (by simp) (by decide) (by norm_num)

/-- C8: the decoder handles the spec's 1-byte malformed body gracefully
(any input shorter than two bytes yields `None`), but it is not
panic-free: on the 11-byte input `0x0A` followed by nine `0xFF` bytes
and `0x01`, the varint length decodes to `2 ^ 64 - 1`, the bound check
`pos + length <= data.len()` wraps around and passes, and the slice
`data[11..10]` panics (in a debug build the addition itself panics),
modelled here as the `Except.error` outcome. -/
theorem c8_decoder_panic :
    (∀ b : Nat, deserialize_protobuf_response [b] = .ok none) ∧
    deserialize_protobuf_response
      [10, 255, 255, 255, 255, 255, 255, 255, 255, 255, 1] = .error () := by
  constructor
  · intro b
    rfl
  · have hrv : readVarint [255, 255, 255, 255, 255, 255, 255, 255, 255, 1] 0 0 =
        (18446744073709551615, []) := by decide
    rw [deserialize_protobuf_response, if_neg (by norm_num)]
    rw [deserLoop.eq_def]
    dsimp only
    rw [if_pos (show ((10 : Nat) % 8 == 2) = true from rfl)]
    rw [hrv]
    dsimp only
    norm_num [wrap64]
